import Mathlib

/-!
Shallow embedding of the message cache / sync layer of `src/database.py`
(ChatNest).  SQLite tables become lists of typed rows; each database
function becomes a pure state-passing function on a `DB` value; the claims
of the specification are settled as theorems about these functions.
-/



namespace ChatNest

/-- A row of the `messages` table.  Note the DDL declares
`id TEXT PRIMARY KEY` (single column), with `user_id` a plain scoping
column added by migration. `is_unread` is the stored INTEGER flag. -/
structure MsgRow where
  id : String
  user_id : String
  platform : String
  sender : String
  sender_email : Option String
  subject : Option String
  preview : Option String
  body : Option String
  thread_id : Option String
  channel : Option String
  timestamp : String
  is_unread : Nat
  raw_json : Option String
  cached_at : String
deriving DecidableEq

/-- A row of the `read_state` table (`message_id TEXT PRIMARY KEY`). -/
structure ReadRow where
  message_id : String
  read_at : String
deriving DecidableEq

/-- A row of the `tool_log` table. -/
structure LogRow where
  id : Nat
  user_id : Option String
  tool_name : String
  platform : Option String
  status : String
  duration_ms : Option Int
  result_summary : Option String
  called_at : String
deriving DecidableEq

/-- A row of the `provider_tokens` table
(`PRIMARY KEY (user_id, provider)`). -/
structure TokenRow where
  user_id : String
  provider : String
  access_token : String
  refresh_token : Option String
  token_uri : Option String
  client_id : Option String
  client_secret : Option String
  scopes : String
  expiry : Option String
  account_email : Option String
  created_at : String
  updated_at : String
deriving DecidableEq

/-- The database state: the tables the verified claims touch.
`next_log_id` models the AUTOINCREMENT counter of `tool_log`. -/
structure DB where
  messages : List MsgRow
  read_state : List ReadRow
  tool_log : List LogRow
  next_log_id : Nat
  provider_tokens : List TokenRow
deriving DecidableEq

def emptyDB : DB := ⟨[], [], [], 1, []⟩

/-- ASCII whitespace, as stripped by Python `str.strip()`. -/
def isSpace (c : Char) : Bool :=
  c = ' ' || c = '\t' || c = '\n' || c = '\r' || c = '\x0b' || c = '\x0c'

/-- Python `str.strip()` (kernel-reducible model of whitespace trimming). -/
def strip (s : String) : String :=
  ⟨((s.data.dropWhile isSpace).reverse.dropWhile isSpace).reverse⟩

def charLtb (a b : Char) : Bool := Nat.blt a.toNat b.toNat

/-- Lexicographic order on character lists: SQLite's default TEXT
collation (BINARY, byte order) restricted to the data in play. -/
def dataLtb : List Char → List Char → Bool
  | [], [] => false
  | [], _ :: _ => true
  | _ :: _, [] => false
  | a :: as, b :: bs =>
    if charLtb a b then true else if charLtb b a then false else dataLtb as bs

def strLtb (a b : String) : Bool := dataLtb a.data b.data

/-- `_scope_user`: `(user_id or "global").strip() or "global"`. -/
def scope_user (user_id : Option String) : String :=
  let s0 := match user_id with
    | none => "global"
    | some s => if s = "" then "global" else s
  let s1 := strip s0
  if s1 = "" then "global" else s1

/-- `_read_state_key`: `f"{_scope_user(user_id)}:{message_id}"`. -/
def read_state_key (user_id : Option String) (message_id : String) : String :=
  scope_user user_id ++ ":" ++ message_id

/-- One input dict of `upsert_messages` (the keys the function reads;
`msg.get` with no default becomes `Option`, `is_unread` defaults to
`True`).  JSON serialisation of `raw_json` is kept abstract as the
string payload itself, since no verified claim inspects it. -/
structure MsgInput where
  id : String
  platform : String
  sender : String
  sender_email : Option String
  subject : Option String
  preview : Option String
  body : Option String
  thread_id : Option String
  channel : Option String
  timestamp : String
  is_unread : Option Bool
  raw_json : Option String
deriving DecidableEq

/-- The tuple `upsert_messages` builds for one input dict. -/
def rowOfInput (msg : MsgInput) (scopedUser now : String) : MsgRow :=
  { id := msg.id
    user_id := scopedUser
    platform := msg.platform
    sender := msg.sender
    sender_email := msg.sender_email
    subject := msg.subject
    preview := msg.preview
    body := msg.body
    thread_id := msg.thread_id
    channel := msg.channel
    timestamp := msg.timestamp
    is_unread := if msg.is_unread.getD true then 1 else 0
    raw_json := match msg.raw_json with
      | some s => if s = "" then none else some s
      | none => none
    cached_at := now }

/-- `INSERT OR REPLACE INTO messages`: the table's PRIMARY KEY is the
single column `id`, so a conflicting row is replaced keyed on `id`
alone (the `user_id` column does not participate in the key). -/
def insertOrReplaceMsg (ms : List MsgRow) (r : MsgRow) : List MsgRow :=
  ms.filter (fun m => !(m.id == r.id)) ++ [r]

/-- `upsert_messages`: batch `INSERT OR REPLACE` (rows written in input
order), returning the count of rows written. -/
def upsert_messages (db : DB) (messages : List MsgInput)
    (user_id : Option String) (now : String) : DB × Nat :=
  let su := scope_user user_id
  let rows := messages.map (fun m => rowOfInput m su now)
  ({ db with messages := rows.foldl insertOrReplaceMsg db.messages },
   rows.length)

/-- The platform condition of `get_messages` / `clear_cache`: Python
`if platform:` treats the empty string like `None` (no filter). -/
def platformMatch (platform : Option String) (m : MsgRow) : Bool :=
  match platform with
  | some p => if p == "" then true else m.platform == p
  | none => true

/-- The WHERE clause of `get_messages`.  With `unread_only` the query
adds `m.is_unread = 1` — the raw stored flag; `read_state` is not
consulted by the filter. -/
def matchesQuery (m : MsgRow) (su : String) (platform : Option String)
    (unread_only : Bool) : Bool :=
  m.user_id == su && platformMatch platform m &&
    (if unread_only then m.is_unread == 1 else true)

/-- The SELECT column
`CASE WHEN rs.message_id IS NOT NULL THEN 0 ELSE m.is_unread END`
with the join `rs.message_id = (m.user_id || ':' || m.id)`. -/
def effectiveUnread (rs : List ReadRow) (m : MsgRow) : Nat :=
  if rs.any (fun r => r.message_id == m.user_id ++ ":" ++ m.id) then 0
  else m.is_unread

/-- Descending insertion by `timestamp` (ORDER BY m.timestamp DESC;
ties resolved deterministically by insertion position, which SQLite
leaves unspecified). -/
def insertTsDesc (m : MsgRow) : List MsgRow → List MsgRow
  | [] => [m]
  | x :: xs =>
    if strLtb m.timestamp x.timestamp then x :: insertTsDesc m xs
    else m :: x :: xs

def sortTsDesc : List MsgRow → List MsgRow
  | [] => []
  | x :: xs => insertTsDesc x (sortTsDesc xs)

/-- `get_messages`: filter, order newest-first, attach the
`effective_unread` column, truncate to `limit` rows. -/
def get_messages (db : DB) (platform : Option String) (unread_only : Bool)
    (limit : Nat) (user_id : Option String) : List (MsgRow × Nat) :=
  let su := scope_user user_id
  let ms := db.messages.filter (fun m => matchesQuery m su platform unread_only)
  ((sortTsDesc ms).map (fun m => (m, effectiveUnread db.read_state m))).take limit

/-- The WHERE clause of `get_unread_counts`:
`m.user_id = ? AND m.is_unread = 1 AND rs.message_id IS NULL`. -/
def unreadQualifies (rs : List ReadRow) (su : String) (m : MsgRow) : Bool :=
  m.user_id == su && m.is_unread == 1 &&
    !(rs.any (fun r => r.message_id == m.user_id ++ ":" ++ m.id))

def qualifyingMsgs (db : DB) (su : String) : List MsgRow :=
  db.messages.filter (unreadQualifies db.read_state su)

/-- `COUNT(*)` of the qualifying rows of one platform group. -/
def platformCount (db : DB) (su p : String) : Nat :=
  ((qualifyingMsgs db su).filter (fun m => m.platform == p)).length

/-- The result rows of the `GROUP BY m.platform` query: one row per
distinct platform among the qualifying messages, with its count.
(SQLite does not fix the group order; only content is relied on.) -/
def groupRows (db : DB) (su : String) : List (String × Nat) :=
  (((qualifyingMsgs db su).map (fun m => m.platform)).dedup).map
    (fun p => (p, platformCount db su p))

/-- Python dict assignment `d[k] = v`: overwrite the existing entry in
place, or append a new one at the end. -/
def dictSet : List (String × Nat) → String → Nat → List (String × Nat)
  | [], k, v => [(k, v)]
  | kv :: rest, k, v =>
    if kv.1 == k then (k, v) :: rest else kv :: dictSet rest k v

def dictLookup : List (String × Nat) → String → Option Nat
  | [], _ => none
  | kv :: rest, k => if kv.1 == k then some kv.2 else dictLookup rest k

/-- `counts = {"gmail": 0, "slack": 0, "telegram": 0}`. -/
def initCounts : List (String × Nat) := [("gmail", 0), ("slack", 0), ("telegram", 0)]

def knownPlatforms : List String := ["gmail", "slack", "telegram"]

/-- `get_unread_counts`: start from the three zero defaults, then write
each group row into the dict. -/
def get_unread_counts (db : DB) (user_id : Option String) : List (String × Nat) :=
  (groupRows db (scope_user user_id)).foldl
    (fun d pc => dictSet d pc.1 pc.2) initCounts

/-- `mark_read`: `INSERT OR IGNORE` into `read_state`, then report
whether a row with the key exists (`COUNT(*) > 0`). -/
def mark_read (db : DB) (message_id : String) (user_id : Option String)
    (now : String) : DB × Bool :=
  let key := read_state_key user_id message_id
  let rs :=
    if db.read_state.any (fun r => r.message_id == key) then db.read_state
    else db.read_state ++ [⟨key, now⟩]
  let db' := { db with read_state := rs }
  (db', decide (0 < (db'.read_state.filter (fun r => r.message_id == key)).length))

/-- `is_read`: pure key lookup in `read_state`. -/
def is_read (db : DB) (message_id : String) (user_id : Option String) : Bool :=
  db.read_state.any (fun r => r.message_id == read_state_key user_id message_id)

/-- `log_tool_call`: insert a `'calling'` row and return the
auto-generated id. -/
def log_tool_call (db : DB) (tool_name : String) (platform : Option String)
    (user_id : Option String) (now : String) : DB × Nat :=
  let row : LogRow :=
    { id := db.next_log_id
      user_id := some (scope_user user_id)
      tool_name := tool_name
      platform := platform
      status := "calling"
      duration_ms := none
      result_summary := none
      called_at := now }
  ({ db with tool_log := db.tool_log ++ [row], next_log_id := db.next_log_id + 1 },
   row.id)

/-- The row transformation of `finish_tool_call`'s UPDATE: set status,
duration and summary together on the row with the given id. -/
def finishUpd (log_id : Nat) (duration_ms : Int) (result_summary : String)
    (status : String) (r : LogRow) : LogRow :=
  if r.id == log_id then
    { r with status := status
             duration_ms := some duration_ms
             result_summary := some result_summary }
  else r

/-- `finish_tool_call`: one UPDATE setting status, duration and summary
on the row with the given id. -/
def finish_tool_call (db : DB) (log_id : Nat) (duration_ms : Int)
    (result_summary : String) (status : String) : DB :=
  { db with tool_log := db.tool_log.map (finishUpd log_id duration_ms result_summary status) }

/-- An operation against the tool log (for the temporal claim). -/
inductive LogOp where
  | start (tool_name : String) (platform : Option String)
      (user_id : Option String) (now : String)
  | finish (log_id : Nat) (duration_ms : Int) (result_summary : String)
      (status : String)
deriving DecidableEq

def applyLogOp (db : DB) : LogOp → DB
  | .start n p u t => (log_tool_call db n p u t).1
  | .finish i d s st => finish_tool_call db i d s st

def applyLogOps (db : DB) (ops : List LogOp) : DB := ops.foldl applyLogOp db

/-- Precondition of the temporal claim: every finish carries a terminal
status. -/
def terminalOnly (ops : List LogOp) : Bool :=
  ops.all (fun op => match op with
    | .finish _ _ _ st => st == "done" || st == "error"
    | .start _ _ _ _ => true)

/-- Well-formedness the tool-log table maintains: AUTOINCREMENT ids are
below the counter and pairwise distinct. -/
def LogWF (db : DB) : Prop :=
  (∀ r ∈ db.tool_log, r.id < db.next_log_id) ∧
    (db.tool_log.map (fun r => r.id)).Nodup

instance (db : DB) : Decidable (LogWF db) := by
  unfold LogWF; infer_instance

/-- Python `x or None` on a string argument. -/
def orNone (s : String) : Option String := if s = "" then none else some s

/-- `json.dumps(scopes or [])` on a list of strings (character escaping
elided: no verified claim inspects the payload beyond equality of equal
inputs). -/
def scopesJson (scopes : Option (List String)) : String :=
  "[" ++ String.intercalate ", " ((scopes.getD []).map (fun s => "\"" ++ s ++ "\"")) ++ "]"

def tokenKey (user_id provider : String) (t : TokenRow) : Bool :=
  t.user_id == user_id && t.provider == provider

/-- The VALUES tuple of `upsert_provider_token` as a row. -/
def newTokenRow (user_id provider : String)
    (access_token refresh_token token_uri client_id client_secret : String)
    (scopes : Option (List String)) (expiry account_email : String)
    (now : String) : TokenRow :=
  { user_id := user_id
    provider := provider
    access_token := access_token
    refresh_token := orNone refresh_token
    token_uri := orNone token_uri
    client_id := orNone client_id
    client_secret := orNone client_secret
    scopes := scopesJson scopes
    expiry := orNone expiry
    account_email := orNone account_email
    created_at := now
    updated_at := now }

/-- The `DO UPDATE SET` clause: overwrite every field from `excluded`
— except `created_at`, which the conflict clause omits. -/
def updToken (n : TokenRow) (t : TokenRow) : TokenRow :=
  if tokenKey n.user_id n.provider t then
    { t with access_token := n.access_token
             refresh_token := n.refresh_token
             token_uri := n.token_uri
             client_id := n.client_id
             client_secret := n.client_secret
             scopes := n.scopes
             expiry := n.expiry
             account_email := n.account_email
             updated_at := n.updated_at }
  else t

/-- `upsert_provider_token`: INSERT with
`ON CONFLICT(user_id, provider) DO UPDATE SET`. -/
def upsert_provider_token (db : DB) (user_id provider : String)
    (access_token : String) (refresh_token token_uri client_id client_secret : String)
    (scopes : Option (List String)) (expiry account_email : String)
    (now : String) : DB :=
  let n := newTokenRow user_id provider access_token refresh_token token_uri
    client_id client_secret scopes expiry account_email now
  if db.provider_tokens.any (tokenKey user_id provider) then
    { db with provider_tokens := db.provider_tokens.map (updToken n) }
  else
    { db with provider_tokens := db.provider_tokens ++ [n] }

/-- The row predicate `clear_cache` counts and then deletes (the same
predicate in both statements; Python `if platform:` treats `""` like
`None`). -/
def clearTarget (su : String) (platform : Option String) (m : MsgRow) : Bool :=
  match platform with
  | some p => if p == "" then m.user_id == su
              else m.user_id == su && m.platform == p
  | none => m.user_id == su

/-- `clear_cache`: count matching rows, delete them, return the count. -/
def clear_cache (db : DB) (platform : Option String)
    (user_id : Option String) : DB × Nat :=
  let su := scope_user user_id
  let cnt := (db.messages.filter (clearTarget su platform)).length
  ({ db with messages := db.messages.filter (fun m => !(clearTarget su platform m)) },
   cnt)

def mkMsg (i p ts : String) : MsgInput :=
  { id := i, platform := p, sender := "s",
    sender_email := none, subject := none, preview := none, body := none,
    thread_id := none, channel := none, timestamp := ts,
    is_unread := some true, raw_json := none }

def c7db : DB :=
  (upsert_messages emptyDB
    [mkMsg "gmail:1" "gmail" "t5", mkMsg "gmail:2" "gmail" "t4",
     mkMsg "gmail:3" "gmail" "t3", mkMsg "slack:1" "slack" "t2",
     mkMsg "slack:2" "slack" "t1"] (some "u1") "t0").1

def c5msg : MsgRow := rowOfInput (mkMsg "gmail:1" "gmail" "ts1") "u" "t0"

def c5db : DB := (upsert_messages emptyDB [mkMsg "gmail:1" "gmail" "ts1"] (some "u") "t0").1

def c4m1 : MsgInput := mkMsg "gmail:7" "gmail" "ts1"

def c4m2 : MsgInput := { mkMsg "gmail:7" "gmail" "ts2" with sender := "s2" }

def c3db1 : DB := upsert_provider_token emptyDB "u1" "gmail" "a1" "" "" "" "" none "" "" "t1"

def c3db2 : DB := upsert_provider_token c3db1 "u1" "gmail" "a2" "" "" "" "" none "" "" "t2"

def c1db : DB :=
  (mark_read (upsert_messages emptyDB [mkMsg "gmail:1" "gmail" "ts1"] (some "u") "t0").1
    "gmail:1" (some "u") "t1").1

def c2db1 : DB :=
  (upsert_messages emptyDB [mkMsg "gmail:x" "gmail" "ts1"] (some "A") "t1").1

def c2db2 : DB :=
  (upsert_messages c2db1 [{ mkMsg "gmail:x" "gmail" "ts1" with sender := "other" }]
    (some "B") "t2").1

def c9db : DB :=
  finish_tool_call (log_tool_call emptyDB "x" none (some "u") "t0").1 1 5 "ok" "done"

def c9row : LogRow :=
  { id := 1, user_id := some "u", tool_name := "x", platform := none,
    status := "done", duration_ms := some 5, result_summary := some "ok",
    called_at := "t0" }

def c8db : DB := (upsert_messages emptyDB [mkMsg "sms:1" "sms" "ts1"] (some "u") "t0").1

theorem mark_read_messages (db : DB) (mid : String) (u : Option String) (t : String) :
    (mark_read db mid u t).1.messages = db.messages := rfl

theorem mark_read_key_mem (db : DB) (mid : String) (u : Option String) (t : String) :
    (mark_read db mid u t).1.read_state.any
      (fun r => r.message_id == read_state_key u mid) = true := by
  unfold mark_read
  by_cases h : db.read_state.any (fun r => r.message_id == read_state_key u mid) = true
  · simp [h]
  · simp only [Bool.not_eq_true] at h
    simp [h]

theorem mark_read_snd_eq (db : DB) (mid : String) (u : Option String) (t : String) :
    (mark_read db mid u t).2 = decide (0 < ((mark_read db mid u t).1.read_state.filter
      (fun r => r.message_id == read_state_key u mid)).length) := rfl

theorem mark_read_returns_true (db : DB) (mid : String) (u : Option String) (t : String) :
    (mark_read db mid u t).2 = true := by
  have h := mark_read_key_mem db mid u t
  rw [List.any_eq_true] at h
  obtain ⟨r, hr, hm⟩ := h
  have hmem : r ∈ (mark_read db mid u t).1.read_state.filter
      (fun r => r.message_id == read_state_key u mid) := List.mem_filter.2 ⟨hr, hm⟩
  rw [mark_read_snd_eq]
  exact decide_eq_true (List.length_pos_of_mem hmem)

theorem mark_read_read_state_eq (db : DB) (mid : String) (u : Option String) (t : String) :
    (mark_read db mid u t).1.read_state =
      if db.read_state.any (fun r => r.message_id == read_state_key u mid) then
        db.read_state
      else db.read_state ++ [⟨read_state_key u mid, t⟩] := rfl

theorem mark_read_filter_len (db : DB) (mid : String) (u : Option String) (t : String)
    (h : (db.read_state.filter (fun r => r.message_id == read_state_key u mid)).length ≤ 1) :
    ((mark_read db mid u t).1.read_state.filter
      (fun r => r.message_id == read_state_key u mid)).length = 1 := by
  rw [mark_read_read_state_eq]
  by_cases ha : db.read_state.any (fun r => r.message_id == read_state_key u mid) = true
  · rw [if_pos ha]
    rw [List.any_eq_true] at ha
    obtain ⟨r, hr, hm⟩ := ha
    have hmem : r ∈ db.read_state.filter (fun r => r.message_id == read_state_key u mid) :=
      List.mem_filter.2 ⟨hr, hm⟩
    have hpos := List.length_pos_of_mem hmem
    omega
  · rw [if_neg ha]
    rw [List.filter_append]
    have hnil : db.read_state.filter (fun r => r.message_id == read_state_key u mid) = [] := by
      rw [List.filter_eq_nil_iff]
      intro a hain hma
      exact ha (List.any_eq_true.2 ⟨a, hain, hma⟩)
    simp [hnil]

theorem length_filter_add_not (l : List MsgRow) (q : MsgRow → Bool) :
    (l.filter q).length + (l.filter (fun a => !(q a))).length = l.length := by
  induction l with
  | nil => rfl
  | cons a l ih =>
    cases hq : q a <;> simp [List.filter_cons, hq] <;> omega

theorem clearTarget_of_ne (su p : String) (hp : p ≠ "") :
    clearTarget su (some p) = fun m => m.user_id == su && m.platform == p := by
  funext m
  simp [clearTarget, hp]

/-- C7: `clear(scope, platform)` deletes exactly the scope's rows of that
platform, returns the number of rows deleted, leaves every other row in
place, and a subsequent query for that scope and platform is empty. -/
theorem C7_clear_cache_platform (db : DB) (p : String) (u : Option String)
    (limit : Nat) (hp : p ≠ "") :
    (clear_cache db (some p) u).2 =
      (db.messages.filter (fun m => m.user_id == scope_user u && m.platform == p)).length ∧
    (clear_cache db (some p) u).1.messages =
      db.messages.filter (fun m => !(m.user_id == scope_user u && m.platform == p)) ∧
    get_messages (clear_cache db (some p) u).1 (some p) false limit u = [] ∧
    (clear_cache db (some p) u).2 + (clear_cache db (some p) u).1.messages.length
      = db.messages.length := by
  have hct := clearTarget_of_ne (scope_user u) p hp
  have h2 : (clear_cache db (some p) u).2 =
      (db.messages.filter (fun m => m.user_id == scope_user u && m.platform == p)).length := by
    show (db.messages.filter (clearTarget (scope_user u) (some p))).length = _
    rw [hct]
  have h1 : (clear_cache db (some p) u).1.messages =
      db.messages.filter (fun m => !(m.user_id == scope_user u && m.platform == p)) := by
    show db.messages.filter (fun m => !(clearTarget (scope_user u) (some p) m)) = _
    rw [hct]
  refine ⟨h2, h1, ?_, ?_⟩
  · simp only [get_messages]
    have hnil : (clear_cache db (some p) u).1.messages.filter
        (fun m => matchesQuery m (scope_user u) (some p) false) = [] := by
      rw [List.filter_eq_nil_iff]
      intro m hm hq
      rw [h1, List.mem_filter] at hm
      obtain ⟨_hmem, hneg⟩ := hm
      simp [matchesQuery, platformMatch, hp] at hq
      simp [hq.1, hq.2] at hneg
    rw [hnil]
    simp [sortTsDesc]
  · rw [h1, h2]
    exact length_filter_add_not db.messages _

/-- C6: `mark_read` is idempotent and total on its key: two calls on the same
`(scope, message_id)` leave exactly one `read_state` row for that key, both
calls return `true`, and the operation neither reads nor writes the message
store (so it succeeds when no message with that id is cached). -/
theorem C6_mark_read_idempotent_total (db : DB) (mid : String) (u : Option String)
    (t1 t2 : String)
    (h : (db.read_state.filter (fun r => r.message_id == read_state_key u mid)).length ≤ 1) :
    (mark_read db mid u t1).2 = true ∧
    (mark_read (mark_read db mid u t1).1 mid u t2).2 = true ∧
    ((mark_read (mark_read db mid u t1).1 mid u t2).1.read_state.filter
      (fun r => r.message_id == read_state_key u mid)).length = 1 ∧
    (mark_read (mark_read db mid u t1).1 mid u t2).1.messages = db.messages := by
  have h1 := mark_read_filter_len db mid u t1 h
  exact ⟨mark_read_returns_true .., mark_read_returns_true ..,
    mark_read_filter_len _ mid u t2 (by omega), rfl⟩

theorem C6_witness :
    ((emptyDB.read_state.filter
      (fun r => r.message_id == read_state_key (some "u") "gmail:9")).length ≤ 1) ∧
    ((mark_read emptyDB "gmail:9" (some "u") "t1").2 = true ∧
     (mark_read (mark_read emptyDB "gmail:9" (some "u") "t1").1 "gmail:9" (some "u") "t2").2 = true ∧
     ((mark_read (mark_read emptyDB "gmail:9" (some "u") "t1").1 "gmail:9" (some "u") "t2").1.read_state.filter
       (fun r => r.message_id == read_state_key (some "u") "gmail:9")).length = 1 ∧
     (mark_read (mark_read emptyDB "gmail:9" (some "u") "t1").1 "gmail:9" (some "u") "t2").1.messages = emptyDB.messages) :=
  ⟨by decide, C6_mark_read_idempotent_total emptyDB "gmail:9" (some "u") "t1" "t2" (by decide)⟩

/-- C10: read-state rows are keyed by the single string
`scope ++ ":" ++ message_id`, so any two `(scope, id)` pairs whose
concatenations coincide share one read-state row: `mark_read` under one pair
makes `is_read` report `true` under the other. -/
theorem C10_read_state_key_collision (db : DB) (t : String)
    (s1 s2 : Option String) (i1 i2 : String)
    (h : scope_user s1 ++ ":" ++ i1 = scope_user s2 ++ ":" ++ i2) :
    read_state_key s1 i1 = read_state_key s2 i2 ∧
    is_read (mark_read db i1 s1 t).1 i2 s2 = true := by
  have hk : read_state_key s1 i1 = read_state_key s2 i2 := h
  refine ⟨hk, ?_⟩
  unfold is_read
  rw [← hk]
  exact mark_read_key_mem db i1 s1 t

theorem C10_witness :
    (scope_user (some "a") ++ ":" ++ "b:c" = scope_user (some "a:b") ++ ":" ++ "c") ∧
    (read_state_key (some "a") "b:c" = read_state_key (some "a:b") "c" ∧
     is_read (mark_read emptyDB "b:c" (some "a") "t").1 "c" (some "a:b") = true) :=
  ⟨by decide, C10_read_state_key_collision emptyDB "t" (some "a") (some "a:b") "b:c" "c" (by decide)⟩

-- C7 witness: the 3-gmail / 2-slack scenario from the claim.

theorem C7_witness :
    (("gmail" : String) ≠ "") ∧
    ((clear_cache c7db (some "gmail") (some "u1")).2 =
       (c7db.messages.filter
         (fun m => m.user_id == scope_user (some "u1") && m.platform == "gmail")).length ∧
     (clear_cache c7db (some "gmail") (some "u1")).1.messages =
       c7db.messages.filter
         (fun m => !(m.user_id == scope_user (some "u1") && m.platform == "gmail")) ∧
     get_messages (clear_cache c7db (some "gmail") (some "u1")).1 (some "gmail") false 50 (some "u1") = [] ∧
     (clear_cache c7db (some "gmail") (some "u1")).2 +
       (clear_cache c7db (some "gmail") (some "u1")).1.messages.length = c7db.messages.length) ∧
    (clear_cache c7db (some "gmail") (some "u1")).2 = 3 ∧
    ((clear_cache c7db (some "gmail") (some "u1")).1.messages.map
      (fun m => m.platform)) = ["slack", "slack"] :=
  ⟨by decide, C7_clear_cache_platform c7db "gmail" (some "u1") 50 (by decide),
   by decide, by decide⟩

theorem mem_insertTsDesc {a m : MsgRow} {l : List MsgRow} :
    a ∈ insertTsDesc m l ↔ a = m ∨ a ∈ l := by
  induction l with
  | nil => simp [insertTsDesc]
  | cons x xs ih =>
    unfold insertTsDesc
    by_cases hc : strLtb m.timestamp x.timestamp = true
    · rw [if_pos hc]
      simp only [List.mem_cons, ih]
      tauto
    · rw [if_neg hc]
      simp only [List.mem_cons]

theorem mem_sortTsDesc {a : MsgRow} {l : List MsgRow} :
    a ∈ sortTsDesc l ↔ a ∈ l := by
  induction l with
  | nil => simp [sortTsDesc]
  | cons x xs ih =>
    unfold sortTsDesc
    rw [mem_insertTsDesc, ih]
    simp

theorem length_insertTsDesc (m : MsgRow) (l : List MsgRow) :
    (insertTsDesc m l).length = l.length + 1 := by
  induction l with
  | nil => rfl
  | cons x xs ih =>
    unfold insertTsDesc
    by_cases hc : strLtb m.timestamp x.timestamp = true
    · rw [if_pos hc]; simp [ih]
    · rw [if_neg hc]; simp

theorem length_sortTsDesc (l : List MsgRow) :
    (sortTsDesc l).length = l.length := by
  induction l with
  | nil => rfl
  | cons x xs ih =>
    unfold sortTsDesc
    rw [length_insertTsDesc, ih]
    rfl

/-- Membership characterisation of `get_messages` when the limit does not
truncate: a pair `(m, eu)` is returned iff `m` is a stored row passing the
WHERE clause and `eu` is its `effective_unread` column. -/
theorem mem_get_messages (db : DB) (p : Option String) (uo : Bool) (limit : Nat)
    (u : Option String) (m : MsgRow) (eu : Nat)
    (hlim : (db.messages.filter (fun x => matchesQuery x (scope_user u) p uo)).length ≤ limit) :
    ((m, eu) ∈ get_messages db p uo limit u) ↔
      (m ∈ db.messages ∧ matchesQuery m (scope_user u) p uo = true ∧
       eu = effectiveUnread db.read_state m) := by
  simp only [get_messages]
  rw [List.take_of_length_le (by rw [List.length_map, length_sortTsDesc]; exact hlim)]
  rw [List.mem_map]
  constructor
  · rintro ⟨x, hx, hfx⟩
    rw [mem_sortTsDesc, List.mem_filter] at hx
    obtain ⟨hxm, hq⟩ := hx
    have h1 : x = m := congrArg Prod.fst hfx
    have h2 : effectiveUnread db.read_state x = eu := congrArg Prod.snd hfx
    subst h1
    exact ⟨hxm, hq, h2.symm⟩
  · rintro ⟨hm, hq, heu⟩
    refine ⟨m, ?_, ?_⟩
    · rw [mem_sortTsDesc, List.mem_filter]; exact ⟨hm, hq⟩
    · rw [heu]

/-- C5: a cached message with stored flag unread and no read-state row has
effective unread `1` and is reported so by the query; after `mark_read` its
effective unread becomes `0` while the message rows — including the stored
`is_unread` flag — are untouched. -/
theorem C5_effective_unread_mark_read (db : DB) (u : Option String) (m : MsgRow)
    (t : String) (limit : Nat)
    (hm : m ∈ db.messages) (hu : m.user_id = scope_user u) (hunread : m.is_unread = 1)
    (hnors : db.read_state.all (fun r => !(r.message_id == m.user_id ++ ":" ++ m.id)) = true)
    (hlim : (db.messages.filter (fun x => matchesQuery x (scope_user u) none false)).length ≤ limit) :
    effectiveUnread db.read_state m = 1 ∧
    (m, 1) ∈ get_messages db none false limit u ∧
    (mark_read db m.id u t).1.messages = db.messages ∧
    effectiveUnread (mark_read db m.id u t).1.read_state m = 0 ∧
    (m, 0) ∈ get_messages (mark_read db m.id u t).1 none false limit u := by
  have hkey : read_state_key u m.id = m.user_id ++ ":" ++ m.id := by
    unfold read_state_key; rw [hu]
  have hmatch : matchesQuery m (scope_user u) none false = true := by
    simp [matchesQuery, platformMatch, hu]
  have hany : db.read_state.any (fun r => r.message_id == m.user_id ++ ":" ++ m.id) = false := by
    rw [List.any_eq_false]
    intro r hr
    have h := List.all_eq_true.1 hnors r hr
    simpa using h
  have heff1 : effectiveUnread db.read_state m = 1 := by
    simp [effectiveUnread, hany, hunread]
  have hkm := mark_read_key_mem db m.id u t
  rw [hkey] at hkm
  have heff0 : effectiveUnread (mark_read db m.id u t).1.read_state m = 0 := by
    simp [effectiveUnread, hkm]
  refine ⟨heff1, ?_, rfl, heff0, ?_⟩
  · exact (mem_get_messages db none false limit u m 1 hlim).2 ⟨hm, hmatch, heff1.symm⟩
  · exact (mem_get_messages (mark_read db m.id u t).1 none false limit u m 0 hlim).2
      ⟨hm, hmatch, heff0.symm⟩

theorem C5_witness :
    (c5msg ∈ c5db.messages ∧ c5msg.user_id = scope_user (some "u") ∧
     c5msg.is_unread = 1 ∧
     c5db.read_state.all (fun r => !(r.message_id == c5msg.user_id ++ ":" ++ c5msg.id)) = true ∧
     (c5db.messages.filter (fun x => matchesQuery x (scope_user (some "u")) none false)).length ≤ 50) ∧
    (effectiveUnread c5db.read_state c5msg = 1 ∧
     (c5msg, 1) ∈ get_messages c5db none false 50 (some "u") ∧
     (mark_read c5db c5msg.id (some "u") "t9").1.messages = c5db.messages ∧
     effectiveUnread (mark_read c5db c5msg.id (some "u") "t9").1.read_state c5msg = 0 ∧
     (c5msg, 0) ∈ get_messages (mark_read c5db c5msg.id (some "u") "t9").1 none false 50 (some "u")) :=
  ⟨⟨by decide, by decide, by decide, by decide, by decide⟩,
   C5_effective_unread_mark_read c5db (some "u") c5msg "t9" 50
     (by decide) (by decide) (by decide) (by decide) (by decide)⟩

theorem filter_id_insertOrReplaceMsg (l : List MsgRow) (r : MsgRow) :
    (insertOrReplaceMsg l r).filter (fun m => m.id == r.id) = [r] := by
  unfold insertOrReplaceMsg
  rw [List.filter_append, List.filter_filter]
  have h1 : l.filter (fun a => (a.id == r.id) && !(a.id == r.id)) = [] := by
    rw [List.filter_eq_nil_iff]
    intro a _
    cases h : a.id == r.id <;> simp [h]
  rw [h1]
  simp

theorem filter_idscope_insertOrReplaceMsg (l : List MsgRow) (r : MsgRow) :
    (insertOrReplaceMsg l r).filter
      (fun m => m.id == r.id && m.user_id == r.user_id) = [r] := by
  unfold insertOrReplaceMsg
  rw [List.filter_append, List.filter_filter]
  have h1 : l.filter (fun a => (a.id == r.id && a.user_id == r.user_id) && !(a.id == r.id)) = [] := by
    rw [List.filter_eq_nil_iff]
    intro a _
    cases h : a.id == r.id <;> simp [h]
  rw [h1]
  simp

/-- C4: message upsert is last-write-wins per `(scope, id)`: writing the same
id twice — in one batch (input order) or across two calls — leaves exactly
one row for that id (globally, hence also within the scope), holding the
later write's content. -/
theorem C4_upsert_last_write_wins (db : DB) (m1 m2 : MsgInput) (u : Option String)
    (now1 now2 : String) (_h : m1.id = m2.id) :
    ((upsert_messages db [m1, m2] u now1).1.messages.filter
      (fun m => m.id == m2.id)) = [rowOfInput m2 (scope_user u) now1] ∧
    ((upsert_messages db [m1, m2] u now1).1.messages.filter
      (fun m => m.id == m2.id && m.user_id == scope_user u)) =
      [rowOfInput m2 (scope_user u) now1] ∧
    ((upsert_messages (upsert_messages db [m1] u now1).1 [m2] u now2).1.messages.filter
      (fun m => m.id == m2.id)) = [rowOfInput m2 (scope_user u) now2] ∧
    ((upsert_messages (upsert_messages db [m1] u now1).1 [m2] u now2).1.messages.filter
      (fun m => m.id == m2.id && m.user_id == scope_user u)) =
      [rowOfInput m2 (scope_user u) now2] :=
  ⟨filter_id_insertOrReplaceMsg
      (insertOrReplaceMsg db.messages (rowOfInput m1 (scope_user u) now1))
      (rowOfInput m2 (scope_user u) now1),
   filter_idscope_insertOrReplaceMsg
      (insertOrReplaceMsg db.messages (rowOfInput m1 (scope_user u) now1))
      (rowOfInput m2 (scope_user u) now1),
   filter_id_insertOrReplaceMsg
      (insertOrReplaceMsg db.messages (rowOfInput m1 (scope_user u) now1))
      (rowOfInput m2 (scope_user u) now2),
   filter_idscope_insertOrReplaceMsg
      (insertOrReplaceMsg db.messages (rowOfInput m1 (scope_user u) now1))
      (rowOfInput m2 (scope_user u) now2)⟩

theorem C4_witness :
    (c4m1.id = c4m2.id) ∧
    (((upsert_messages emptyDB [c4m1, c4m2] (some "u") "n1").1.messages.filter
        (fun m => m.id == c4m2.id)) = [rowOfInput c4m2 (scope_user (some "u")) "n1"] ∧
     ((upsert_messages emptyDB [c4m1, c4m2] (some "u") "n1").1.messages.filter
        (fun m => m.id == c4m2.id && m.user_id == scope_user (some "u"))) =
        [rowOfInput c4m2 (scope_user (some "u")) "n1"] ∧
     ((upsert_messages (upsert_messages emptyDB [c4m1] (some "u") "n1").1 [c4m2] (some "u") "n2").1.messages.filter
        (fun m => m.id == c4m2.id)) = [rowOfInput c4m2 (scope_user (some "u")) "n2"] ∧
     ((upsert_messages (upsert_messages emptyDB [c4m1] (some "u") "n1").1 [c4m2] (some "u") "n2").1.messages.filter
        (fun m => m.id == c4m2.id && m.user_id == scope_user (some "u"))) =
        [rowOfInput c4m2 (scope_user (some "u")) "n2"]) :=
  ⟨by decide, C4_upsert_last_write_wins emptyDB c4m1 c4m2 (some "u") "n1" "n2" (by decide)⟩

theorem map_eq_self_of {α : Type} (l : List α) (f : α → α)
    (h : ∀ a ∈ l, f a = a) : l.map f = l := by
  induction l with
  | nil => rfl
  | cons a l ih =>
    rw [List.map_cons, h a (List.mem_cons_self a l), ih (fun b hb => h b (List.mem_cons_of_mem a hb))]

theorem upsert_token_tokens (db : DB) (u p a r tu c s : String)
    (sc : Option (List String)) (e ae now : String) :
    (upsert_provider_token db u p a r tu c s sc e ae now).provider_tokens =
      if db.provider_tokens.any (tokenKey u p) then
        db.provider_tokens.map (updToken (newTokenRow u p a r tu c s sc e ae now))
      else db.provider_tokens ++ [newTokenRow u p a r tu c s sc e ae now] := by
  by_cases h : db.provider_tokens.any (tokenKey u p) = true <;>
    simp [upsert_provider_token, h]

theorem tokenKey_newTokenRow (u p a r tu c s : String)
    (sc : Option (List String)) (e ae now : String) :
    tokenKey u p (newTokenRow u p a r tu c s sc e ae now) = true := by
  simp [tokenKey, newTokenRow]

theorem updToken_of_not_key (n t : TokenRow) (h : tokenKey n.user_id n.provider t = false) :
    updToken n t = t := by
  unfold updToken
  rw [if_neg (by simp [h])]

/-- C3 (amended): upserting a provider token twice for the same
`(user, provider)` leaves exactly one row for that key; every field of it
reflects the second write — except `created_at`, which the conflict clause
does not overwrite and which retains the first write's value — and rows of
other keys are untouched. -/
theorem C3_provider_token_upsert_overwrite (db : DB) (u p : String)
    (a1 r1 tu1 c1 s1 : String) (sc1 : Option (List String)) (e1 ae1 t1 : String)
    (a2 r2 tu2 c2 s2 : String) (sc2 : Option (List String)) (e2 ae2 t2 : String)
    (h : ∀ t ∈ db.provider_tokens, tokenKey u p t = false) :
    ((upsert_provider_token
        (upsert_provider_token db u p a1 r1 tu1 c1 s1 sc1 e1 ae1 t1)
        u p a2 r2 tu2 c2 s2 sc2 e2 ae2 t2).provider_tokens.filter (tokenKey u p)) =
      [{ user_id := u, provider := p, access_token := a2,
         refresh_token := orNone r2, token_uri := orNone tu2,
         client_id := orNone c2, client_secret := orNone s2,
         scopes := scopesJson sc2, expiry := orNone e2,
         account_email := orNone ae2, created_at := t1, updated_at := t2 }] ∧
    ((upsert_provider_token
        (upsert_provider_token db u p a1 r1 tu1 c1 s1 sc1 e1 ae1 t1)
        u p a2 r2 tu2 c2 s2 sc2 e2 ae2 t2).provider_tokens.filter
          (fun t => !(tokenKey u p t))) = db.provider_tokens := by
  set n1 := newTokenRow u p a1 r1 tu1 c1 s1 sc1 e1 ae1 t1 with hn1
  set n2 := newTokenRow u p a2 r2 tu2 c2 s2 sc2 e2 ae2 t2 with hn2
  have hany1 : db.provider_tokens.any (tokenKey u p) = false := by
    rw [List.any_eq_false]
    intro t ht
    simp [h t ht]
  have hdb1 : (upsert_provider_token db u p a1 r1 tu1 c1 s1 sc1 e1 ae1 t1).provider_tokens =
      db.provider_tokens ++ [n1] := by
    rw [upsert_token_tokens, if_neg (by simp [hany1])]
  have hany2 : (db.provider_tokens ++ [n1]).any (tokenKey u p) = true := by
    rw [List.any_eq_true]
    exact ⟨n1, by simp, tokenKey_newTokenRow ..⟩
  have hdb2 : (upsert_provider_token
      (upsert_provider_token db u p a1 r1 tu1 c1 s1 sc1 e1 ae1 t1)
      u p a2 r2 tu2 c2 s2 sc2 e2 ae2 t2).provider_tokens =
      db.provider_tokens.map (updToken n2) ++ [updToken n2 n1] := by
    rw [upsert_token_tokens, hdb1, if_pos hany2, List.map_append]
    rfl
  have hmapid : db.provider_tokens.map (updToken n2) = db.provider_tokens := by
    apply map_eq_self_of
    intro t ht
    exact updToken_of_not_key n2 t (h t ht)
  have hupd : updToken n2 n1 =
      { user_id := u, provider := p, access_token := a2,
        refresh_token := orNone r2, token_uri := orNone tu2,
        client_id := orNone c2, client_secret := orNone s2,
        scopes := scopesJson sc2, expiry := orNone e2,
        account_email := orNone ae2, created_at := t1, updated_at := t2 } := by
    rw [hn1, hn2]
    simp [updToken, tokenKey, newTokenRow]
  have hkeyupd : tokenKey u p (updToken n2 n1) = true := by
    rw [hupd]
    simp [tokenKey]
  have hnil : db.provider_tokens.filter (tokenKey u p) = [] := by
    rw [List.filter_eq_nil_iff]
    intro t ht
    simp [h t ht]
  have hself : db.provider_tokens.filter (fun t => !(tokenKey u p t)) = db.provider_tokens := by
    rw [List.filter_eq_self]
    intro t ht
    simp [h t ht]
  constructor
  · rw [hdb2, List.filter_append, hmapid, hnil, List.nil_append]
    simp [List.filter_cons, hkeyupd, hupd, tokenKey]
  · rw [hdb2, List.filter_append, hmapid, hself]
    simp [List.filter_cons, hkeyupd]

/-- C3 counterexample: after the second upsert for `("u1","gmail")` the
single row carries the second access token but still the FIRST write's
`created_at` value `"t1"`, not the second write's `"t2"`: the field
`created_at` retains a value from the first write, so not every field
reflects the second write. -/
theorem C3_counterexample :
    c3db2.provider_tokens.map (fun t => (t.access_token, t.created_at, t.updated_at)) =
      [("a2", "t1", "t2")] ∧ ("t1" : String) ≠ "t2" := by decide

theorem C3_witness :
    (∀ t ∈ emptyDB.provider_tokens, tokenKey "u1" "gmail" t = false) ∧
    (((upsert_provider_token
        (upsert_provider_token emptyDB "u1" "gmail" "a1" "r1" "tu1" "c1" "s1" (some ["sc1"]) "e1" "ae1" "t1")
        "u1" "gmail" "a2" "r2" "tu2" "c2" "s2" (some ["sc2"]) "e2" "ae2" "t2").provider_tokens.filter
          (tokenKey "u1" "gmail")) =
      [{ user_id := "u1", provider := "gmail", access_token := "a2",
         refresh_token := orNone "r2", token_uri := orNone "tu2",
         client_id := orNone "c2", client_secret := orNone "s2",
         scopes := scopesJson (some ["sc2"]), expiry := orNone "e2",
         account_email := orNone "ae2", created_at := "t1", updated_at := "t2" }] ∧
     ((upsert_provider_token
        (upsert_provider_token emptyDB "u1" "gmail" "a1" "r1" "tu1" "c1" "s1" (some ["sc1"]) "e1" "ae1" "t1")
        "u1" "gmail" "a2" "r2" "tu2" "c2" "s2" (some ["sc2"]) "e2" "ae2" "t2").provider_tokens.filter
          (fun t => !(tokenKey "u1" "gmail" t))) = emptyDB.provider_tokens) :=
  ⟨by decide,
   C3_provider_token_upsert_overwrite emptyDB "u1" "gmail"
     "a1" "r1" "tu1" "c1" "s1" (some ["sc1"]) "e1" "ae1" "t1"
     "a2" "r2" "tu2" "c2" "s2" (some ["sc2"]) "e2" "ae2" "t2" (by decide)⟩

theorem matchesQuery_unread_true_iff (m : MsgRow) (su : String) (p : Option String) :
    matchesQuery m su p true = true ↔
      (m.user_id = su ∧ platformMatch p m = true ∧ m.is_unread = 1) := by
  simp [matchesQuery]
  tauto

/-- C1 (amended): an `unread_only` query filters on the raw stored
`is_unread` flag, not on effective unread: a pair `(m, eu)` is returned iff
`m` belongs to the scope, passes the platform filter, and has stored
`is_unread = 1` — with no condition on `read_state` — while the reported
`eu` column carries the effective unread value (0 when a read-state row
exists); in particular a message whose stored flag is set but which has a
read-state row IS returned. -/
theorem C1_unread_only_filters_raw_flag (db : DB) (p : Option String) (limit : Nat)
    (u : Option String) (m : MsgRow) (eu : Nat)
    (hlim : (db.messages.filter (fun x => matchesQuery x (scope_user u) p true)).length ≤ limit) :
    ((m, eu) ∈ get_messages db p true limit u) ↔
      (m ∈ db.messages ∧ m.user_id = scope_user u ∧ platformMatch p m = true ∧
       m.is_unread = 1 ∧ eu = effectiveUnread db.read_state m) := by
  rw [mem_get_messages db p true limit u m eu hlim]
  constructor
  · rintro ⟨hm, hq, heu⟩
    obtain ⟨h1, h2, h3⟩ := (matchesQuery_unread_true_iff m (scope_user u) p).1 hq
    exact ⟨hm, h1, h2, h3, heu⟩
  · rintro ⟨hm, h1, h2, h3, heu⟩
    exact ⟨hm, (matchesQuery_unread_true_iff m (scope_user u) p).2 ⟨h1, h2, h3⟩, heu⟩

/-- C1 counterexample: message "gmail:1" of scope "u" has a read-state row
(it is read: effective unread 0, and the unread count for gmail is 0), yet
the `unread_only` query still returns it — the claim says a message with a
read-state row is NOT returned. -/
theorem C1_counterexample :
    is_read c1db "gmail:1" (some "u") = true ∧
    (get_messages c1db none true 50 (some "u")).map (fun r => r.1.id) = ["gmail:1"] ∧
    (get_messages c1db none true 50 (some "u")).map (fun r => r.2) = [0] ∧
    dictLookup (get_unread_counts c1db (some "u")) "gmail" = some 0 := by decide

theorem C1_witness :
    ((c1db.messages.filter (fun x => matchesQuery x (scope_user (some "u")) none true)).length ≤ 50) ∧
    (((rowOfInput (mkMsg "gmail:1" "gmail" "ts1") "u" "t0", 0) ∈
        get_messages c1db none true 50 (some "u")) ↔
      (rowOfInput (mkMsg "gmail:1" "gmail" "ts1") "u" "t0" ∈ c1db.messages ∧
       (rowOfInput (mkMsg "gmail:1" "gmail" "ts1") "u" "t0").user_id = scope_user (some "u") ∧
       platformMatch none (rowOfInput (mkMsg "gmail:1" "gmail" "ts1") "u" "t0") = true ∧
       (rowOfInput (mkMsg "gmail:1" "gmail" "ts1") "u" "t0").is_unread = 1 ∧
       0 = effectiveUnread c1db.read_state (rowOfInput (mkMsg "gmail:1" "gmail" "ts1") "u" "t0"))) :=
  ⟨by decide,
   C1_unread_only_filters_raw_flag c1db none 50 (some "u")
     (rowOfInput (mkMsg "gmail:1" "gmail" "ts1") "u" "t0") 0 (by decide)⟩

/-- C2 (code bug): the `messages` table's PRIMARY KEY is the single column
`id`, so `INSERT OR REPLACE` of id "gmail:x" under scope "B" replaces scope
"A"'s row: scope "A"'s query, which returned the row before, returns empty
afterwards, and the only row left for that id belongs to scope "B" — the
claim (and the spec's `(user scope, message id)` uniqueness invariant)
requires scope "A"'s row to remain present and unchanged. -/
theorem C2_cross_scope_clobber :
    (get_messages c2db1 none false 50 (some "A")).map (fun r => r.1.id) = ["gmail:x"] ∧
    get_messages c2db2 none false 50 (some "A") = [] ∧
    c2db2.messages.map (fun m => (m.id, m.user_id)) = [("gmail:x", "B")] := by decide

theorem finishUpd_id (i : Nat) (d : Int) (s st : String) (r : LogRow) :
    (finishUpd i d s st r).id = r.id := by
  unfold finishUpd
  split <;> rfl

theorem logWF_applyLogOp (db : DB) (op : LogOp) (h : LogWF db) :
    LogWF (applyLogOp db op) := by
  obtain ⟨hlt, hnd⟩ := h
  cases op with
  | start n p u t =>
    have hrow : ∃ row : LogRow, row.id = db.next_log_id ∧
        (applyLogOp db (LogOp.start n p u t)).tool_log = db.tool_log ++ [row] ∧
        (applyLogOp db (LogOp.start n p u t)).next_log_id = db.next_log_id + 1 :=
      ⟨⟨db.next_log_id, some (scope_user u), n, p, "calling", none, none, t⟩,
        rfl, rfl, rfl⟩
    obtain ⟨row, hrid, he, he2⟩ := hrow
    constructor
    · intro r hr
      rw [he] at hr
      rw [he2]
      rw [List.mem_append] at hr
      rcases hr with hr | hr
      · have := hlt r hr
        omega
      · simp at hr
        rw [hr, hrid]
        exact Nat.lt_succ_self _
    · rw [he, List.map_append, List.nodup_append]
      refine ⟨hnd, List.nodup_singleton _, ?_⟩
      intro a ha hb
      simp only [List.map_cons, List.map_nil, List.mem_singleton] at hb
      rw [List.mem_map] at ha
      obtain ⟨r, hr, hid⟩ := ha
      have hlt' := hlt r hr
      rw [hid, hb, hrid] at hlt'
      exact absurd hlt' (Nat.lt_irrefl _)
  | finish i d s st =>
    have hids : ((db.tool_log.map (finishUpd i d s st)).map (fun r => r.id)) =
        db.tool_log.map (fun r => r.id) := by
      rw [List.map_map]
      apply List.map_congr_left
      intro r _
      exact finishUpd_id i d s st r
    constructor
    · intro r hr
      have hr' : r ∈ db.tool_log.map (finishUpd i d s st) := hr
      rw [List.mem_map] at hr'
      obtain ⟨r0, hr0, hup⟩ := hr'
      show r.id < db.next_log_id
      rw [← hup, finishUpd_id]
      exact hlt r0 hr0
    · show ((db.tool_log.map (finishUpd i d s st)).map (fun r => r.id)).Nodup
      rw [hids]
      exact hnd

theorem log_no_revert (ops : List LogOp) : ∀ db : DB, terminalOnly ops = true → LogWF db →
    ∀ r ∈ db.tool_log, (r.status = "done" ∨ r.status = "error") →
    ∀ r' ∈ (applyLogOps db ops).tool_log, r'.id = r.id →
    r'.status = "done" ∨ r'.status = "error" := by
  induction ops with
  | nil =>
    intro db _ hwf r hr hterm r' hr' hid
    have : r' = r := List.inj_on_of_nodup_map hwf.2 hr' hr hid
    rw [this]
    exact hterm
  | cons op rest ih =>
    intro db hto hwf r hr hterm r' hr' hid
    have hto' : terminalOnly rest = true := by
      unfold terminalOnly at hto ⊢
      rw [List.all_cons, Bool.and_eq_true] at hto
      exact hto.2
    have hwf' := logWF_applyLogOp db op hwf
    cases op with
    | start n p u t =>
      exact ih (applyLogOp db (.start n p u t)) hto' hwf' r
        (List.mem_append_left _ hr) hterm r' hr' hid
    | finish i d s st =>
      have hst : st = "done" ∨ st = "error" := by
        unfold terminalOnly at hto
        rw [List.all_cons, Bool.and_eq_true] at hto
        have := hto.1
        simp at this
        rcases this with h | h
        · exact Or.inl h
        · exact Or.inr h
      refine ih (applyLogOp db (.finish i d s st)) hto' hwf' (finishUpd i d s st r)
        (List.mem_map_of_mem _ hr) ?_ r' hr' ?_
      · unfold finishUpd
        split
        · exact hst
        · exact hterm
      · rw [hid, finishUpd_id]

/-- C9: the tool log is a three-state machine: `start` creates an entry with
status "calling" and null duration/summary; `finish` with a terminal status
sets status, a non-null duration and a non-null summary in one update; and
provided every finish carries a terminal status, no sequence of start/finish
operations moves an entry's status from a terminal state back to "calling". -/
theorem C9_tool_log_state_machine (db : DB) (n : String) (p u : Option String)
    (t : String) (i : Nat) (d : Int) (s st : String) (ops : List LogOp)
    (hst : st = "done" ∨ st = "error") (hops : terminalOnly ops = true)
    (hwf : LogWF db) (r : LogRow) (hr : r ∈ db.tool_log)
    (hterm : r.status = "done" ∨ r.status = "error") :
    ((log_tool_call db n p u t).1.tool_log = db.tool_log ++
       [{ id := (log_tool_call db n p u t).2, user_id := some (scope_user u),
          tool_name := n, platform := p, status := "calling",
          duration_ms := none, result_summary := none, called_at := t }]) ∧
    (∀ r' ∈ (finish_tool_call db i d s st).tool_log, r'.id = i →
       r'.status = st ∧ r'.duration_ms = some d ∧ r'.result_summary = some s) ∧
    (∀ r' ∈ (applyLogOps db ops).tool_log, r'.id = r.id →
       r'.status = "done" ∨ r'.status = "error") := by
  refine ⟨rfl, ?_, log_no_revert ops db hops hwf r hr hterm⟩
  intro r' hr' hid
  have hr'' : r' ∈ db.tool_log.map (finishUpd i d s st) := hr'
  rw [List.mem_map] at hr''
  obtain ⟨r0, _hr0, hup⟩ := hr''
  have hid0 : r0.id = i := by
    rw [← finishUpd_id i d s st r0, hup]
    exact hid
  have hupd : finishUpd i d s st r0 =
      { r0 with status := st, duration_ms := some d, result_summary := some s } := by
    unfold finishUpd
    rw [if_pos (by simp [hid0])]
  rw [← hup, hupd]
  exact ⟨rfl, rfl, rfl⟩

theorem C9_witness :
    (("done" : String) = "done" ∨ ("done" : String) = "error") ∧
    (terminalOnly [LogOp.start "y" none none "t1", LogOp.finish 1 7 "again" "error"] = true) ∧
    LogWF c9db ∧ c9row ∈ c9db.tool_log ∧
    (c9row.status = "done" ∨ c9row.status = "error") ∧
    (((log_tool_call c9db "n2" none (some "u") "t3").1.tool_log = c9db.tool_log ++
       [{ id := (log_tool_call c9db "n2" none (some "u") "t3").2, user_id := some (scope_user (some "u")),
          tool_name := "n2", platform := none, status := "calling",
          duration_ms := none, result_summary := none, called_at := "t3" }]) ∧
     (∀ r' ∈ (finish_tool_call c9db 1 9 "sum" "done").tool_log, r'.id = 1 →
        r'.status = "done" ∧ r'.duration_ms = some 9 ∧ r'.result_summary = some "sum") ∧
     (∀ r' ∈ (applyLogOps c9db [LogOp.start "y" none none "t1", LogOp.finish 1 7 "again" "error"]).tool_log,
        r'.id = c9row.id → r'.status = "done" ∨ r'.status = "error")) :=
  ⟨Or.inl rfl, by decide, by decide, by decide, Or.inl rfl,
   C9_tool_log_state_machine c9db "n2" none (some "u") "t3" 1 9 "sum" "done"
     [LogOp.start "y" none none "t1", LogOp.finish 1 7 "again" "error"]
     (Or.inl rfl) (by decide) (by decide) c9row (by decide) (Or.inl rfl)⟩

theorem dictLookup_dictSet_self (d : List (String × Nat)) (k : String) (v : Nat) :
    dictLookup (dictSet d k v) k = some v := by
  induction d with
  | nil => simp [dictSet, dictLookup]
  | cons kv rest ih =>
    unfold dictSet
    by_cases h : (kv.1 == k) = true
    · rw [if_pos h]
      simp [dictLookup]
    · rw [if_neg h]
      unfold dictLookup
      rw [if_neg h]
      exact ih

theorem dictLookup_dictSet_ne (d : List (String × Nat)) (k : String) (v : Nat)
    (k' : String) (h : k' ≠ k) :
    dictLookup (dictSet d k v) k' = dictLookup d k' := by
  induction d with
  | nil =>
    unfold dictSet dictLookup
    rw [if_neg (by simp [Ne.symm h])]
    rfl
  | cons kv rest ih =>
    unfold dictSet
    by_cases hk : (kv.1 == k) = true
    · rw [if_pos hk]
      unfold dictLookup
      rw [if_neg (by simp [Ne.symm h])]
      rw [if_neg (by rw [beq_iff_eq] at hk ⊢; rw [hk]; exact Ne.symm h)]
    · rw [if_neg hk]
      unfold dictLookup
      by_cases hk' : (kv.1 == k') = true
      · rw [if_pos hk', if_pos hk']
      · rw [if_neg hk', if_neg hk']
        exact ih

theorem foldDict_lookup_notmem (gs : List (String × Nat)) :
    ∀ (d : List (String × Nat)) (k : String), k ∉ gs.map Prod.fst →
    dictLookup (gs.foldl (fun d pc => dictSet d pc.1 pc.2) d) k = dictLookup d k := by
  induction gs with
  | nil => intro d k _; rfl
  | cons g rest ih =>
    intro d k hk
    simp only [List.map_cons, List.mem_cons] at hk
    push_neg at hk
    rw [List.foldl_cons]
    rw [ih (dictSet d g.1 g.2) k hk.2]
    exact dictLookup_dictSet_ne d g.1 g.2 k hk.1

theorem foldDict_lookup_mem (gs : List (String × Nat)) :
    ∀ (d : List (String × Nat)) (k : String) (v : Nat),
    (gs.map Prod.fst).Nodup → (k, v) ∈ gs →
    dictLookup (gs.foldl (fun d pc => dictSet d pc.1 pc.2) d) k = some v := by
  induction gs with
  | nil => intro d k v _ hm; simp at hm
  | cons g rest ih =>
    intro d k v hnd hm
    simp only [List.map_cons, List.nodup_cons] at hnd
    rw [List.foldl_cons]
    rcases List.mem_cons.1 hm with hm | hm
    · have hk : g.1 = k := by rw [← hm]
      have hv : g.2 = v := by rw [← hm]
      have hnot : k ∉ rest.map Prod.fst := by
        rw [← hk]
        exact hnd.1
      rw [foldDict_lookup_notmem rest (dictSet d g.1 g.2) k hnot]
      rw [hk, hv]
      exact dictLookup_dictSet_self d k v
    · exact ih (dictSet d g.1 g.2) k v hnd.2 hm

theorem foldDict_lookup_origin (gs : List (String × Nat)) (d : List (String × Nat))
    (k : String)
    (h : dictLookup (gs.foldl (fun d pc => dictSet d pc.1 pc.2) d) k ≠ none) :
    dictLookup d k ≠ none ∨ k ∈ gs.map Prod.fst := by
  by_cases hk : k ∈ gs.map Prod.fst
  · exact Or.inr hk
  · left
    rw [foldDict_lookup_notmem gs d k hk] at h
    exact h

theorem initCounts_lookup (p : String) (v : Nat)
    (h : dictLookup initCounts p = some v) : p ∈ knownPlatforms ∧ v = 0 := by
  by_cases h1 : p = "gmail"
  · subst h1
    refine ⟨by decide, ?_⟩
    have he : dictLookup initCounts "gmail" = some 0 := by decide
    rw [he] at h
    exact (Option.some.inj h).symm
  by_cases h2 : p = "slack"
  · subst h2
    refine ⟨by decide, ?_⟩
    have he : dictLookup initCounts "slack" = some 0 := by decide
    rw [he] at h
    exact (Option.some.inj h).symm
  by_cases h3 : p = "telegram"
  · subst h3
    refine ⟨by decide, ?_⟩
    have he : dictLookup initCounts "telegram" = some 0 := by decide
    rw [he] at h
    exact (Option.some.inj h).symm
  · exfalso
    have hnone : dictLookup initCounts p = none := by
      simp [dictLookup, initCounts, Ne.symm h1, Ne.symm h2, Ne.symm h3]
    rw [hnone] at h
    exact Option.noConfusion h

theorem get_unread_counts_eq (db : DB) (u : Option String) :
    get_unread_counts db u =
      (groupRows db (scope_user u)).foldl (fun d pc => dictSet d pc.1 pc.2) initCounts := rfl

theorem groupRows_fst (db : DB) (su : String) :
    (groupRows db su).map Prod.fst =
      ((qualifyingMsgs db su).map (fun m => m.platform)).dedup := by
  unfold groupRows
  rw [List.map_map]
  exact List.map_id' _

theorem platformCount_eq_zero_of_notmem (db : DB) (su p : String)
    (h : p ∉ (qualifyingMsgs db su).map (fun m => m.platform)) :
    platformCount db su p = 0 := by
  unfold platformCount
  rw [List.length_eq_zero, List.filter_eq_nil_iff]
  intro m hm hq
  exact h (List.mem_map.2 ⟨m, hm, by rwa [beq_iff_eq] at hq⟩)

/-- C8 (amended): `unread_counts` always contains an entry for each known
platform (gmail, slack, telegram) whose value is the number of the scope's
cached messages of that platform with the stored unread flag set and no
read-state row (0 by default); every entry's value equals that count for
its key, and any key beyond the three known platforms can only be the
platform of such an effectively-unread cached message (so extra keys can
occur for unknown platform strings). -/
theorem C8_unread_counts_keys_values (db : DB) (u : Option String) :
    (∀ p ∈ knownPlatforms,
       dictLookup (get_unread_counts db u) p = some (platformCount db (scope_user u) p)) ∧
    (∀ p v, dictLookup (get_unread_counts db u) p = some v →
       v = platformCount db (scope_user u) p ∧
       (p ∈ knownPlatforms ∨
        p ∈ (qualifyingMsgs db (scope_user u)).map (fun m => m.platform))) := by
  have hfst := groupRows_fst db (scope_user u)
  have hnd : ((groupRows db (scope_user u)).map Prod.fst).Nodup := by
    rw [hfst]
    exact List.nodup_dedup _
  constructor
  · intro p hp
    rw [get_unread_counts_eq]
    by_cases hk : p ∈ (groupRows db (scope_user u)).map Prod.fst
    · have hk' : p ∈ ((qualifyingMsgs db (scope_user u)).map (fun m => m.platform)).dedup := by
        rw [← hfst]
        exact hk
      have hmem : (p, platformCount db (scope_user u) p) ∈ groupRows db (scope_user u) :=
        List.mem_map_of_mem _ hk'
      exact foldDict_lookup_mem _ initCounts p _ hnd hmem
    · rw [foldDict_lookup_notmem _ initCounts p hk]
      have h0 : platformCount db (scope_user u) p = 0 := by
        apply platformCount_eq_zero_of_notmem
        intro hmm
        rw [hfst] at hk
        exact hk (List.mem_dedup.2 hmm)
      rw [h0]
      simp only [knownPlatforms, List.mem_cons, List.not_mem_nil, or_false] at hp
      rcases hp with rfl | rfl | rfl
      · decide
      · decide
      · decide
  · intro p v hv
    rw [get_unread_counts_eq] at hv
    by_cases hk : p ∈ (groupRows db (scope_user u)).map Prod.fst
    · have hk' : p ∈ ((qualifyingMsgs db (scope_user u)).map (fun m => m.platform)).dedup := by
        rw [← hfst]
        exact hk
      have hmem : (p, platformCount db (scope_user u) p) ∈ groupRows db (scope_user u) :=
        List.mem_map_of_mem _ hk'
      have hlook := foldDict_lookup_mem _ initCounts p _ hnd hmem
      rw [hlook] at hv
      exact ⟨(Option.some.inj hv).symm, Or.inr (List.mem_dedup.1 hk')⟩
    · rw [foldDict_lookup_notmem _ initCounts p hk] at hv
      obtain ⟨hkp, hv0⟩ := initCounts_lookup p v hv
      have h0 : platformCount db (scope_user u) p = 0 := by
        apply platformCount_eq_zero_of_notmem
        intro hmm
        rw [hfst] at hk
        exact hk (List.mem_dedup.2 hmm)
      exact ⟨by rw [h0, hv0], Or.inl hkp⟩

/-- C8 counterexample: one cached unread message on platform "sms" makes
`unread_counts` return a fourth entry `("sms", 1)` besides the three
defaults — the claim says the map contains entries for the known platforms
"and no others". -/
theorem C8_counterexample :
    get_unread_counts c8db (some "u") =
      [("gmail", 0), ("slack", 0), ("telegram", 0), ("sms", 1)] ∧
    dictLookup (get_unread_counts c8db (some "u")) "sms" = some 1 := by decide

theorem C8_witness :
    (("gmail" : String) ∈ knownPlatforms) ∧
    dictLookup (get_unread_counts c8db (some "u")) "gmail" =
      some (platformCount c8db (scope_user (some "u")) "gmail") :=
  ⟨by decide, (C8_unread_counts_keys_values c8db (some "u")).1 "gmail" (by decide)⟩

end ChatNest
